import Mathlib

/-!
Verification of the OpenHeavy multi-agent orchestration engine.

Shallow embedding of the core components:
  * `src/core/executor.py`   — `PlanExecutor.execute_step` / `_execute_tool`
  * `src/tools/registry.py`  — `ToolRegistry.execute_tool`
  * `src/core/planner.py`    — `TaskPlanner.create_plan`
  * `src/core/synthesizer.py`— `AnswerSynthesizer.synthesize_answer` and
                               `synthesize_answer_streaming`
  * `src/services/orchestrator.py` — `AgentOrchestrator.run_agents`

The completion / search providers are external collaborators; each embedded
operation takes the provider's scripted behaviour (one entry per call the code
makes) as an explicit argument.  Machine-level details that no property below
depends on are elided and noted where they occur: wall-clock timestamps and
float durations, logging, and full JSON escaping of control characters.
-/

namespace OpenHeavy

/-! ## Python values crossing the tool boundary

The values the executor moves around are Python `None`, strings, and
string-valued dicts (the error payload `{"content": ...}` built by
`PlanExecutor._execute_tool` and the `{"error": ..., "step": ...}` fallback).
Deeper JSON nesting never reaches a decision point of the embedded code. -/

inductive PyVal where
  | none
  | str (s : String)
  | strDict (fields : List (String × String))
deriving Repr, DecidableEq

/-- Escape of a string for `json.dumps`: backslash and double quote.
Control-character escapes are elided (no embedded value contains them). -/
def jsonEscape (s : String) : String :=
  String.join (s.toList.map (fun c =>
    if c = '\\' then "\\\\" else if c = '"' then "\\\"" else String.singleton c))

/-- Model of `json.dumps` on the values of `PyVal`, matching Python's default
separators (", " between items, ": " between key and value). -/
def dumps : PyVal → String
  | .none => "null"
  | .str s => "\"" ++ jsonEscape s ++ "\""
  | .strDict fields =>
      "\x7b" ++
        String.intercalate ", "
          (fields.map (fun kv => "\"" ++ jsonEscape kv.1 ++ "\": \"" ++ jsonEscape kv.2 ++ "\"")) ++
      "\x7d"

/-! ## Tool calls and the tool registry -/

/-- Arguments of a tool call after the `json.loads` step in `execute_step`
(lines 94-97 of `executor.py`): either a decoded string-keyed dict, or the
raw payload when it is not a dict (decoding failed or produced a non-dict). -/
inductive ToolArgs where
  | dict (fields : List (String × String))
  | raw (s : String)
deriving Repr, DecidableEq

/-- Python `args or {}` (line 99): a falsy value — empty dict, empty string —
is replaced by the empty dict. -/
def orEmptyArgs : ToolArgs → ToolArgs
  | .dict fields => .dict fields
  | .raw s => if s = "" then .dict [] else .raw s

/-- One tool call of a completion message, with the function name already
extracted (the `getattr` fallback chain of lines 90-92) and arguments already
decoded. -/
structure ToolCall where
  name : String
  args : ToolArgs
deriving Repr, DecidableEq

/-- First-value lookup in a string dict, as Python `dict.get`. -/
def lookupField (fields : List (String × String)) (key : String) : Option String :=
  (fields.find? (fun kv => kv.1 == key)).map (fun kv => kv.2)

/-- A registered tool of `ToolRegistry`: enabled flag, `validate_parameters`
(returning `some msg` when it raises) and `execute` (returning `Except.error`
when it raises). -/
structure RegisteredTool where
  enabled : Bool
  validate : List (String × String) → Option String
  execute : List (String × String) → Except String PyVal

/-- The registry's `_tools` mapping. -/
abbrev Registry := List (String × RegisteredTool)

/-- Python `self._tools.get(name)`. -/
def registryLookup (reg : Registry) (name : String) : Option RegisteredTool :=
  (reg.find? (fun kv => kv.1 == name)).map (fun kv => kv.2)

/-- `ToolRegistry.get_tool`: the tool when registered and enabled, else `None`. -/
def getTool (reg : Registry) (name : String) : Option RegisteredTool :=
  match registryLookup reg name with
  | some t => if t.enabled then some t else none
  | none => none

/-- `ToolRegistry.execute_tool` (registry.py lines 206-231): raises
`ToolNotFoundError` for a disabled or unknown tool, lets
`validate_parameters` and `tool.execute` raise, otherwise returns the tool's
result.  Raising is modelled by `Except.error` carrying `str(e)`. -/
def registryExecuteTool (reg : Registry) (name : String)
    (kwargs : List (String × String)) : Except String PyVal :=
  match getTool reg name with
  | none =>
      if (registryLookup reg name).isSome then
        .error ("Tool \x27" ++ name ++ "\x27 is disabled")
      else
        .error ("Tool \x27" ++ name ++ "\x27 not found")
  | some tool =>
      match tool.validate kwargs with
      | some e => .error e
      | none => tool.execute kwargs

/-- Message raised by Python when `**args` unpacking is applied to a non-dict. -/
def kwargsTypeError : String := "argument of type \x27str\x27 is not a mapping"

/-- `PlanExecutor._execute_tool` (executor.py lines 221-244).
For `final_response` it returns the `content` argument (or the raw arguments
when they are not a dict); for every other name it runs the registry tool and
converts any raised exception `e` into the payload
`{"content": f"Error in {name}: {e}"}`.  The `**args` unpacking of a non-dict
raises inside the `try` block, so it is converted the same way. -/
def pyExecuteTool (reg : Registry) (name : String) (args : ToolArgs) : PyVal :=
  if name = "final_response" then
    match args with
    | .dict fields =>
        match lookupField fields "content" with
        | some c => .str c
        | none => .none
    | .raw s => .str s
  else
    match args with
    | .raw _ => .strDict [("content", "Error in " ++ name ++ ": " ++ kwargsTypeError)]
    | .dict fields =>
        match registryExecuteTool reg name fields with
        | .ok v => v
        | .error e => .strDict [("content", "Error in " ++ name ++ ": " ++ e)]

/-! ## The conversation and the completion service -/

/-- One turn of the conversation built by `execute_step`. -/
inductive ChatMessage where
  | system (content : String)
  | user (content : String)
  | assistant (content : String)
  | assistantToolCall (call : ToolCall)
  | toolResult (name : String) (content : String)
deriving Repr, DecidableEq

/-- Scripted behaviour of `llm_service.create_completion` for one attempt:
either a message (tool calls plus optional direct content — `None` tool calls
collapse to the empty list, both are falsy) or a raised transport/provider
exception. -/
inductive LLMAttempt where
  | response (toolCalls : List ToolCall) (content : Option String)
  | raises (e : String)
deriving Repr, DecidableEq

/-- Truthiness of `message.content`: a non-`None`, non-empty string. -/
def contentTruthy : Option String → Bool
  | some s => s != ""
  | none => false

/-! ## The batch loop (for call in tool_calls) -/

/-- Result of the `for call in tool_calls` loop of `execute_step`
(lines 89-117): the value of `step_output` afterwards (`PyVal.none` when it
was never set — Python initialises it to `None`), the messages appended to the
conversation, and the names of the tools actually executed, in order. -/
structure BatchOutcome where
  output : PyVal
  appended : List ChatMessage
  executed : List String
deriving Repr, DecidableEq

/-- The `for call in tool_calls` loop.  Every call is executed through
`_execute_tool`; on `final_response` the loop breaks at once — later calls in
the batch are neither executed nor appended.  For other calls the assistant
tool-call turn is appended, and a tool-result turn when the result is not
`None`. -/
def processBatch (reg : Registry) : List ToolCall → BatchOutcome
  | [] => ⟨.none, [], []⟩
  | call :: rest =>
      let result := pyExecuteTool reg call.name (orEmptyArgs call.args)
      if call.name = "final_response" then
        ⟨result, [], [call.name]⟩
      else
        let resultMsgs :=
          match result with
          | .none => []
          | v => [ChatMessage.toolResult call.name (dumps v)]
        let r := processBatch reg rest
        ⟨r.output, ChatMessage.assistantToolCall call :: (resultMsgs ++ r.appended),
          call.name :: r.executed⟩

/-! ## The retry loop of execute_step -/

/-- Terminal state of `execute_step`. -/
inductive StepOutcome where
  | ok (output : PyVal)
  | execError (retriesUsed : Int) (cause : String)
  | maxRetriesExceeded
  | outOfScript
deriving Repr, DecidableEq

/-- Observable run of `execute_step`: the outcome, the final conversation, the
number of completion calls made, and the number of `time.sleep(0.5)` backoff
delays taken.  `outOfScript` marks the model artefact of the scripted
completion service running out of entries while the loop would continue. -/
structure StepRun where
  outcome : StepOutcome
  messages : List ChatMessage
  attempts : Nat
  sleeps : Nat
  toolsExecuted : List String
deriving Repr, DecidableEq

/-- Corrective user turn appended after direct text content (line 130). -/
def useFinalMsg : String := "Error: Use final_response tool to return result."

/-- Corrective user turn appended after an empty response (line 145). -/
def emptyRespMsg : String := "Error: Empty response. Use final_response tool."

/-- The `{"error": "no_response", "step": step.title}` fallback (line 140). -/
def noResponseFallback (stepTitle : String) : String :=
  dumps (.strDict [("error", "no_response"), ("step", stepTitle)])

/-- The `while retries <= max_retries` loop of `execute_step`
(executor.py lines 74-158), one equation per scripted attempt.
`step_output` is only ever assigned immediately before a `break`, so every
path that re-checks the loop condition still has `step_output is None`; the
exit through a false condition therefore reaches the post-loop
`MaxRetriesExceededError` branch (lines 160-165) directly. -/
def stepLoop (reg : Registry) (stepTitle : String) (maxRetries : Int) :
    List LLMAttempt → List ChatMessage → Int → StepRun
  | [], messages, retries =>
      if retries ≤ maxRetries then ⟨.outOfScript, messages, 0, 0, []⟩
      else ⟨.maxRetriesExceeded, messages, 0, 0, []⟩
  | attempt :: rest, messages, retries =>
      if retries ≤ maxRetries then
        match attempt with
        | .raises e =>
            if retries + 1 > maxRetries then
              ⟨.execError (retries + 1) e, messages, 1, 0, []⟩
            else
              let r := stepLoop reg stepTitle maxRetries rest messages (retries + 1)
              ⟨r.outcome, r.messages, r.attempts + 1, r.sleeps + 1, r.toolsExecuted⟩
        | .response toolCalls content =>
            match toolCalls with
            | tc :: tcs =>
                let b := processBatch reg (tc :: tcs)
                match b.output with
                | .none =>
                    let r := stepLoop reg stepTitle maxRetries rest
                      (messages ++ b.appended) retries
                    ⟨r.outcome, r.messages, r.attempts + 1, r.sleeps,
                      b.executed ++ r.toolsExecuted⟩
                | out => ⟨.ok out, messages ++ b.appended, 1, 0, b.executed⟩
            | [] =>
                match content with
                | some s =>
                    if s = "" then
                      if retries + 1 > maxRetries then
                        ⟨.ok (.str (noResponseFallback stepTitle)), messages, 1, 0, []⟩
                      else
                        let r := stepLoop reg stepTitle maxRetries rest
                          (messages ++ [ChatMessage.user emptyRespMsg]) (retries + 1)
                        ⟨r.outcome, r.messages, r.attempts + 1, r.sleeps, r.toolsExecuted⟩
                    else
                      if retries + 1 ≤ maxRetries then
                        let r := stepLoop reg stepTitle maxRetries rest
                          (messages ++ [ChatMessage.assistant s, ChatMessage.user useFinalMsg])
                          (retries + 1)
                        ⟨r.outcome, r.messages, r.attempts + 1, r.sleeps, r.toolsExecuted⟩
                      else
                        ⟨.ok (.str s), messages, 1, 0, []⟩
                | none =>
                    if retries + 1 > maxRetries then
                      ⟨.ok (.str (noResponseFallback stepTitle)), messages, 1, 0, []⟩
                    else
                      let r := stepLoop reg stepTitle maxRetries rest
                        (messages ++ [ChatMessage.user emptyRespMsg]) (retries + 1)
                      ⟨r.outcome, r.messages, r.attempts + 1, r.sleeps, r.toolsExecuted⟩
      else ⟨.maxRetriesExceeded, messages, 0, 0, []⟩

/-- The fixed text-only directive of line 58. -/
def criticalDirective : String :=
  "CRITICAL: TEXT-ONLY output. No images/graphics. Use tables/lists.\n"

/-- The system content of lines 57-59; the timestamp line is a parameter. -/
def buildSystemContent (systemPrompt datetimeContext : String) : String :=
  systemPrompt ++ "\n\n" ++ criticalDirective ++ datetimeContext

/-- `PlanExecutor.execute_step`: initial conversation of a system and a user
turn, then the retry loop starting at `retries = 0`. -/
def execute_step (reg : Registry) (stepTitle systemPrompt context datetimeContext : String)
    (maxRetries : Int) (script : List LLMAttempt) : StepRun :=
  stepLoop reg stepTitle maxRetries script
    [ChatMessage.system (buildSystemContent systemPrompt datetimeContext),
     ChatMessage.user context] 0

/-! ## Planner (src/core/planner.py) -/

/-- The `Step` pydantic model of `src/models/plan.py`. -/
structure Step where
  title : String
  tool : Option String
  system_prompt : String
  fields_for_subagent : List String
  report : Bool
deriving Repr, DecidableEq

/-- The `PlanResponse` pydantic model of `src/models/plan.py`. -/
structure PlanResponse where
  plan : List Step
deriving Repr, DecidableEq

/-- Scripted behaviour of `create_structured_completion` for one planning
call: the decoded `message.parsed` (absent on parse failure — a pydantic model
instance is always truthy, `None` is falsy) or a raised exception. -/
inductive PlannerOutcome where
  | parsed (p : Option PlanResponse)
  | raises (e : String)
deriving Repr, DecidableEq

/-- The `PlanningError` raised by `create_plan`.  Both triggers surface as a
`PlanningError` in the source (the internal "didn\x27t return a valid
response" error is itself re-wrapped by the catch-all `except`); the
constructor records which trigger fired. -/
inductive PlanError where
  | noParsedResponse
  | serviceRaised (e : String)
deriving Repr, DecidableEq

/-- ASCII lower-casing of one character; the embedded checks only ever look
for the ASCII pattern "markdown", so Python's full Unicode case mapping is not
needed. -/
def pyLowerChar (c : Char) : Char :=
  if 'A' ≤ c ∧ c ≤ 'Z' then Char.ofNat (c.toNat + 32) else c

/-- Python `s.lower()`. -/
def pyLower (s : String) : String :=
  ⟨s.toList.map pyLowerChar⟩

/-- Whether `pat` is a prefix of `l`. -/
def isPrefixList : List Char → List Char → Bool
  | [], _ => true
  | _ :: _, [] => false
  | p :: ps, c :: cs => p == c && isPrefixList ps cs

/-- Whether `pat` occurs inside `l`. -/
def listContains (l pat : List Char) : Bool :=
  match l with
  | [] => isPrefixList pat []
  | _ :: rest => isPrefixList pat l || listContains rest pat

/-- Python `pat in s`. -/
def containsSubstring (s pat : String) : Bool :=
  listContains s.toList pat.toList

/-- The fixed instruction appended to the last step (planner.py lines 85-88). -/
def markdownInstruction : String :=
  "\n\nGenerate comprehensive MARKDOWN report. Use headers, tables, and formatting. TEXT ONLY - no images."

/-- Rewrite the last element of a list, leaving the rest unchanged. -/
def mapLast (f : Step → Step) : List Step → List Step
  | [] => []
  | [a] => [f a]
  | a :: b :: rest => a :: mapLast f (b :: rest)

/-- The post-processing applied to the last step (planner.py lines 80-88):
mark it as the report step, and append `markdownInstruction` when its
instructions do not already mention markdown (checked case-insensitively on
the prompt before the append). -/
def markReportStep (s : Step) : Step :=
  let s1 : Step := { s with report := true }
  if containsSubstring (pyLower s1.system_prompt) "markdown" then s1
  else { s1 with system_prompt := s1.system_prompt ++ markdownInstruction }

/-- `TaskPlanner.create_plan` (planner.py lines 33-99): one structured
completion call; `PlanningError` when the service raises or returns no parsed
response; otherwise, when the decoded plan is non-empty, every step's `report`
flag is reset and the last step is post-processed by `markReportStep`.  An
empty decoded plan skips the post-processing and is returned as is. -/
def create_plan (svc : PlannerOutcome) : Except PlanError PlanResponse :=
  match svc with
  | .raises e => .error (.serviceRaised e)
  | .parsed none => .error .noParsedResponse
  | .parsed (some p) =>
      match p.plan with
      | [] => .ok p
      | s :: rest =>
          let cleared := (s :: rest).map (fun st => { st with report := false })
          .ok ⟨mapLast markReportStep cleared⟩

/-! ## Synthesizer (src/core/synthesizer.py) -/

/-- Scripted behaviour of the non-streaming synthesis completion call: a
message lacking the `content` attribute, a message whose `content` is `None`
or a string, or a raised exception. -/
inductive SynthCompletion where
  | noContentAttr
  | message (content : Option String)
  | raises (e : String)
deriving Repr, DecidableEq

/-- The `SynthesisError` raised by the synthesizer; the constructor records
which of the source's raise sites fired. -/
inductive SynthError where
  | noAgentResults
  | noContentField
  | emptyResult
  | serviceRaised (e : String)
deriving Repr, DecidableEq

/-- Python's `str.strip()` whitespace set (the six ASCII whitespace
characters; Unicode spaces do not occur in the embedded values). -/
def pyIsSpace (c : Char) : Bool :=
  c == ' ' || c == '\t' || c == '\n' || c == '\r' || c == '\x0b' || c == '\x0c'

/-- Python `s.strip()`. -/
def pyStrip (s : String) : String :=
  ⟨((s.toList.dropWhile pyIsSpace).reverse.dropWhile pyIsSpace).reverse⟩

/-- The numbered concatenation of agent responses (synthesizer.py lines 62-65). -/
def combineAgentResponses (agent_results : List String) : String :=
  String.intercalate "\n\n---\n\n"
    (agent_results.enum.map (fun p => "Agent " ++ toString (p.1 + 1) ++ " response:\n" ++ p.2))

/-- `AnswerSynthesizer.synthesize_answer` (synthesizer.py lines 32-116):
raises on an empty input list before any completion call; raises when the
response message has no `content` attribute; raises when the returned text is
`None`, empty, or whitespace-only; otherwise returns the stripped text.
The prompt assembly feeds `user_query` and `combineAgentResponses` into the
provider, whose reply is the scripted `svc`. -/
def synthesize_answer (user_query : String) (agent_results : List String)
    (svc : SynthCompletion) : Except SynthError String :=
  let _ := combineAgentResponses agent_results
  let _ := user_query
  if agent_results.isEmpty then .error .noAgentResults
  else
    match svc with
    | .raises e => .error (.serviceRaised e)
    | .noContentAttr => .error .noContentField
    | .message content =>
        match content with
        | none => .error .emptyResult
        | some s => if s = "" ∨ pyStrip s = "" then .error .emptyResult else .ok (pyStrip s)

/-- One event of the streaming synthesis iteration: a chunk whose
`delta.content` is `None` or a string, or an exception raised while pulling
from the stream. -/
inductive StreamEvent where
  | chunk (content : Option String)
  | raises (e : String)
deriving Repr, DecidableEq

/-- Observable run of `synthesize_answer_streaming`: the chunks yielded to the
consumer (each also passed to the chunk callback), the number of
`time.sleep(0.05)` pacing delays (one after every yield), and whether the
generator finished normally or raised. -/
structure StreamRun where
  yields : List String
  sleeps : Nat
  outcome : Except SynthError Unit

/-- The `for chunk in stream_response` loop (synthesizer.py lines 175-186):
falsy deltas (`None` or the empty string) are skipped; a truthy delta is
yielded, then the pacing delay runs; an exception ends the stream wrapped as
`SynthesisError`. -/
def runStream : List StreamEvent → StreamRun
  | [] => ⟨[], 0, .ok ()⟩
  | .chunk none :: rest => runStream rest
  | .chunk (some s) :: rest =>
      if s = "" then runStream rest
      else
        let r := runStream rest
        ⟨s :: r.yields, r.sleeps + 1, r.outcome⟩
  | .raises e :: _ => ⟨[], 0, .error (.serviceRaised e)⟩

/-- `AnswerSynthesizer.synthesize_answer_streaming` (synthesizer.py lines
118-200): the empty-input check runs before the completion call; every other
behaviour is the streaming iteration itself — there is no missing-content or
empty-after-trim check anywhere in the streaming path. -/
def synthesize_answer_streaming (user_query : String) (agent_results : List String)
    (stream : List StreamEvent) : StreamRun :=
  let _ := combineAgentResponses agent_results
  let _ := user_query
  if agent_results.isEmpty then ⟨[], 0, .error .noAgentResults⟩
  else runStream stream

/-! ## Orchestrator (src/services/orchestrator.py)

`run_agents` launches one thread per agent config; the agents are mutually
independent and each writes exactly one result under its own distinct
`agent_id` key, so the fan-out is sequentialised here, one unit per config in
launch order (the insertion order of the shared dict is scheduler-dependent in
the source; no property below depends on the order).  Wall-clock execution
times are elided. -/

/-- The fields of the `AgentResult` pydantic model that the orchestration
properties observe (`execution_time` and `metadata` elided). -/
structure AgentResult where
  agent_id : String
  content : String
  steps_completed : Nat
  success : Bool
  error_message : Option String
deriving Repr, DecidableEq

/-- The observed fields of `MultiAgentResult`. -/
structure MultiAgentResult where
  results : List AgentResult
  successful_agents : Nat
deriving Repr, DecidableEq

/-- Scripted behaviour of one agent unit, at the granularity `run_agents`
observes: the wrapper's setup raising before `agent.run` starts; planning
failing inside `agent.run` (caught there, plan-ready event never set);
planning succeeding (event set) followed by execution succeeding or failing
(also caught inside `agent.run`). -/
inductive AgentScript where
  | wrapperRaises (e : String)
  | planningFails (e : String)
  | planReadyThenSucceeds (content : String) (steps : Nat)
  | planReadyThenFails (e : String) (steps : Nat)
deriving Repr, DecidableEq

/-- Whether the unit ever sets the shared `first_agent_plan_ready` event:
`Agent.run` sets it exactly after a successful `create_plan`
(agent.py lines 90-91) and on no other path. -/
def setsPlanReady : AgentScript → Bool
  | .wrapperRaises _ => false
  | .planningFails _ => false
  | .planReadyThenSucceeds _ _ => true
  | .planReadyThenFails _ _ => true

/-- `AgentOrchestrator._run_agent_wrapper` together with `Agent.run`: every
failure is captured as a failed `AgentResult` stored under `agent_id`
(orchestrator.py lines 284-364, agent.py lines 125-144); nothing propagates.
Returns the stored result and whether the plan-ready event was set. -/
def run_agent_wrapper (agent_id : String) : AgentScript → AgentResult × Bool
  | .wrapperRaises e => (⟨agent_id, "", 0, false, some e⟩, false)
  | .planningFails e =>
      (⟨agent_id, "", 0, false, some ("Failed to create plan: " ++ e)⟩, false)
  | .planReadyThenSucceeds c steps => (⟨agent_id, c, steps, true, none⟩, true)
  | .planReadyThenFails e steps => (⟨agent_id, "", steps, false, some e⟩, true)

/-- Observable run of `run_agents`: `result = none` models the call blocking
forever on `first_agent_plan_ready.wait()` (orchestrator.py line 119) — the
event is one-shot and only ever set by an agent whose planning succeeded, so
when no unit sets it the wait never returns.  `completedEventAgents` is the
`total_agents` payload of the `agents_completed` notification (line 158),
emitted only when a socketio sink is present. -/
structure OrchestratorRun where
  result : Option MultiAgentResult
  completedEventAgents : Option Nat
deriving Repr, DecidableEq

/-- `AgentOrchestrator.run_agents` (orchestrator.py lines 66-175): one unit
per config under the id `agent_{i+1}`; after the joins the results are the
values of the shared dict, the success count is computed, and the
`agents_completed` event carries `len(agent_configs)`. -/
def run_agents (user_request : String) (scripts : List AgentScript)
    (socketioPresent : Bool) : OrchestratorRun :=
  let _ := user_request
  let units := scripts.enum.map
    (fun p => run_agent_wrapper ("agent_" ++ toString (p.1 + 1)) p.2)
  if units.any (fun u => u.2) then
    let results := units.map (fun u => u.1)
    let successful := (results.filter (fun r => r.success)).length
    ⟨some ⟨results, successful⟩,
      if socketioPresent then some scripts.length else none⟩
  else ⟨none, none⟩

/-- The conversation turns appended by one non-final direct-content attempt
(executor.py lines 127-131): the assistant's text and the corrective user
instruction. -/
def retryTranscript : List String → List ChatMessage
  | [] => []
  | t :: rest =>
      ChatMessage.assistant t :: ChatMessage.user useFinalMsg :: retryTranscript rest

/-- A small concrete registry used to instantiate proved properties: one
enabled search tool. -/
def sampleRegistry : Registry :=
  [("web_search", ⟨true, fun _ => none, fun _ => .ok (.str "results")⟩)]

/-- A concrete decoded planner response with scrambled report flags, used to
instantiate the planner properties. -/
def samplePlannerSvc : PlannerOutcome :=
  .parsed (some ⟨[⟨"a", none, "p1", [], true⟩,
                  ⟨"b", none, "use MARKDOWN", [], false⟩]⟩)

/-- What `create_plan` returns on `samplePlannerSvc`. -/
def samplePlannedPlan : PlanResponse :=
  ⟨[⟨"a", none, "p1", [], false⟩, ⟨"b", none, "use MARKDOWN", [], true⟩]⟩

/-! ## Step equations of the retry loop

One unfolding lemma per branch of the `while` loop, each with the branch
conditions as hypotheses, so that inductions over scripted attempts can
rewrite a single iteration at a time. -/

theorem stepLoop_raises_last (reg : Registry) (title : String) (maxRetries : Int)
    (e : String) (rest : List LLMAttempt) (messages : List ChatMessage)
    (retries : Int) (h1 : retries ≤ maxRetries) (h2 : retries + 1 > maxRetries) :
    stepLoop reg title maxRetries (LLMAttempt.raises e :: rest) messages retries =
      ⟨.execError (retries + 1) e, messages, 1, 0, []⟩ := by
  simp [stepLoop, h1, h2]

theorem stepLoop_raises_step (reg : Registry) (title : String) (maxRetries : Int)
    (e : String) (rest : List LLMAttempt) (messages : List ChatMessage)
    (retries : Int) (h1 : retries ≤ maxRetries) (h2 : ¬(retries + 1 > maxRetries)) :
    stepLoop reg title maxRetries (LLMAttempt.raises e :: rest) messages retries =
      (let r := stepLoop reg title maxRetries rest messages (retries + 1)
       ⟨r.outcome, r.messages, r.attempts + 1, r.sleeps + 1, r.toolsExecuted⟩) := by
  simp [stepLoop, h1, h2]

theorem stepLoop_direct_last (reg : Registry) (title : String) (maxRetries : Int)
    (s : String) (rest : List LLMAttempt) (messages : List ChatMessage)
    (retries : Int) (h1 : retries ≤ maxRetries) (hs : s ≠ "")
    (h2 : ¬(retries + 1 ≤ maxRetries)) :
    stepLoop reg title maxRetries (LLMAttempt.response [] (some s) :: rest)
        messages retries =
      ⟨.ok (.str s), messages, 1, 0, []⟩ := by
  simp [stepLoop, h1, hs, h2]

theorem stepLoop_direct_step (reg : Registry) (title : String) (maxRetries : Int)
    (s : String) (rest : List LLMAttempt) (messages : List ChatMessage)
    (retries : Int) (h1 : retries ≤ maxRetries) (hs : s ≠ "")
    (h2 : retries + 1 ≤ maxRetries) :
    stepLoop reg title maxRetries (LLMAttempt.response [] (some s) :: rest)
        messages retries =
      (let r := stepLoop reg title maxRetries rest
        (messages ++ [ChatMessage.assistant s, ChatMessage.user useFinalMsg])
        (retries + 1)
       ⟨r.outcome, r.messages, r.attempts + 1, r.sleeps, r.toolsExecuted⟩) := by
  simp [stepLoop, h1, hs, h2]

theorem stepLoop_batch_continue (reg : Registry) (title : String) (maxRetries : Int)
    (tc : ToolCall) (tcs : List ToolCall) (content : Option String)
    (rest : List LLMAttempt) (messages : List ChatMessage) (retries : Int)
    (h1 : retries ≤ maxRetries)
    (hout : (processBatch reg (tc :: tcs)).output = PyVal.none) :
    stepLoop reg title maxRetries
        (LLMAttempt.response (tc :: tcs) content :: rest) messages retries =
      (let r := stepLoop reg title maxRetries rest
        (messages ++ (processBatch reg (tc :: tcs)).appended) retries
       ⟨r.outcome, r.messages, r.attempts + 1, r.sleeps,
        (processBatch reg (tc :: tcs)).executed ++ r.toolsExecuted⟩) := by
  simp [stepLoop, h1, hout]

/-! ## Helper lemmas about mapLast -/

theorem mapLast_length (f : Step → Step) : ∀ l : List Step, (mapLast f l).length = l.length
  | [] => rfl
  | [_] => rfl
  | _ :: b :: rest => by
      simp only [mapLast, List.length_cons]
      exact congrArg (· + 1) (mapLast_length f (b :: rest))

theorem mapLast_getLastQ (f : Step → Step) :
    ∀ l : List Step, (mapLast f l).getLast? = l.getLast?.map f
  | [] => rfl
  | [_] => rfl
  | a :: b :: rest => by
      obtain ⟨c, l2, hcl⟩ : ∃ c l2, mapLast f (b :: rest) = c :: l2 := by
        cases rest with
        | nil => exact ⟨f b, [], rfl⟩
        | cons x xs => exact ⟨b, mapLast f (x :: xs), rfl⟩
      calc (mapLast f (a :: b :: rest)).getLast?
          = (a :: mapLast f (b :: rest)).getLast? := rfl
        _ = (mapLast f (b :: rest)).getLast? := by
            rw [hcl]; exact List.getLast?_cons_cons
        _ = (b :: rest).getLast?.map f := mapLast_getLastQ f (b :: rest)
        _ = (a :: b :: rest).getLast?.map f := by rw [List.getLast?_cons_cons]

theorem mapLast_getElemQ (f : Step → Step) :
    ∀ (l : List Step) (i : Nat), i + 1 < l.length → (mapLast f l)[i]? = l[i]?
  | [], _, h => by simp at h
  | [_], _, h => by simp at h
  | a :: b :: rest, 0, _ => by
      calc (mapLast f (a :: b :: rest))[0]?
          = (a :: mapLast f (b :: rest))[0]? := rfl
        _ = some a := List.getElem?_cons_zero
        _ = (a :: b :: rest)[0]? := List.getElem?_cons_zero.symm
  | a :: b :: rest, i + 1, h => by
      have h' : i + 1 < (b :: rest).length := by
        simp only [List.length_cons] at h ⊢
        omega
      calc (mapLast f (a :: b :: rest))[i + 1]?
          = (mapLast f (b :: rest))[i]? := List.getElem?_cons_succ
        _ = (b :: rest)[i]? := mapLast_getElemQ f (b :: rest) i h'
        _ = (a :: b :: rest)[i + 1]? := List.getElem?_cons_succ.symm

theorem markReportStep_report (s : Step) : (markReportStep s).report = true := by
  simp only [markReportStep]
  split <;> rfl

/-! ## C3 and C9: planner post-processing -/

/-- C3: for every plan returned by `create_plan` that contains at least one
step, exactly one step has `report = true` and it is the last one — every
non-last step has `report = false` — regardless of the report flags the
completion service set on the decoded plan. -/
theorem create_plan_marks_exactly_last_report
    (svc : PlannerOutcome) (p : PlanResponse)
    (h : create_plan svc = .ok p) (hne : p.plan ≠ []) :
    (∃ last, p.plan.getLast? = some last ∧ last.report = true) ∧
    ∀ (i : Nat), i + 1 < p.plan.length → ∀ st, p.plan[i]? = some st →
      st.report = false := by
  cases svc with
  | raises e => simp [create_plan] at h
  | parsed o =>
    cases o with
    | none => simp [create_plan] at h
    | some q =>
      obtain ⟨plan⟩ := q
      cases plan with
      | nil =>
          have hp : (⟨[]⟩ : PlanResponse) = p := Except.ok.inj h
          rw [← hp] at hne
          exact absurd rfl hne
      | cons s rest =>
          have hp : (⟨mapLast markReportStep
              ((s :: rest).map (fun st => { st with report := false }))⟩ :
                PlanResponse) = p :=
            Except.ok.inj h
          have hplan : p.plan = mapLast markReportStep
              ((s :: rest).map (fun st => { st with report := false })) := by
            rw [← hp]
          have hmapne : ((s :: rest).map
              (fun st : Step => { st with report := false })) ≠ [] := by simp
          constructor
          · refine ⟨markReportStep (((s :: rest).map
                (fun st : Step => { st with report := false })).getLast hmapne),
              ?_, markReportStep_report _⟩
            rw [hplan, mapLast_getLastQ,
              List.getLast?_eq_getLast _ hmapne]
            rfl
          · intro i hilt st hst
            have hlen : p.plan.length = (s :: rest).length := by
              rw [hplan, mapLast_length, List.length_map]
            rw [hplan, mapLast_getElemQ, List.getElem?_map] at hst
            · obtain ⟨y, _, hy2⟩ := Option.map_eq_some'.mp hst
              rw [← hy2]
            · rw [List.length_map]
              omega

/-- C3 instance: a concrete two-step decoded plan with scrambled flags comes
back with only the last step marked. -/
theorem create_plan_marks_exactly_last_report_check :
    create_plan samplePlannerSvc = .ok samplePlannedPlan ∧
    samplePlannedPlan.plan ≠ [] ∧
    ((∃ last, samplePlannedPlan.plan.getLast? = some last ∧ last.report = true) ∧
      ∀ (i : Nat), i + 1 < samplePlannedPlan.plan.length →
        ∀ st, samplePlannedPlan.plan[i]? = some st → st.report = false) :=
  ⟨rfl, by decide,
    create_plan_marks_exactly_last_report samplePlannerSvc samplePlannedPlan
      rfl (by decide)⟩

/-- C9 counterexample: when the completion service parses successfully but
decodes an empty step list, `create_plan` returns an empty plan and raises
nothing, contradicting "create_plan never produces an empty plan". -/
theorem create_plan_returns_empty_plan :
    create_plan (.parsed (some ⟨[]⟩)) = .ok ⟨[]⟩ := rfl

/-- C9 amended: `create_plan` raises `PlanningError` exactly when the
completion service raises or returns no parseable plan; otherwise it returns
the decoded plan with its number of steps unchanged — non-empty whenever the
decoded plan was non-empty, but a decoded empty plan is returned as an empty
plan rather than raising. -/
theorem create_plan_error_or_size_preserved :
    (∀ e, create_plan (.raises e) = .error (.serviceRaised e)) ∧
    (create_plan (.parsed none) = .error .noParsedResponse) ∧
    (∀ q : PlanResponse, ∃ p, create_plan (.parsed (some q)) = .ok p ∧
      p.plan.length = q.plan.length) := by
  refine ⟨fun e => rfl, rfl, ?_⟩
  intro q
  obtain ⟨plan⟩ := q
  cases plan with
  | nil => exact ⟨⟨[]⟩, rfl, rfl⟩
  | cons s rest =>
      refine ⟨_, rfl, ?_⟩
      simp [mapLast_length]

/-! ## C6 and C8: synthesizer -/

/-- C6: `synthesize_answer` raises `SynthesisError` on an empty input list,
on a response without a content field, and on text that is empty after
trimming; with one non-empty content and non-blank provider text it succeeds
with non-empty text. -/
theorem synthesize_answer_failure_and_success :
    (∀ q svc, synthesize_answer q [] svc = .error .noAgentResults) ∧
    (∀ q rs, rs ≠ [] →
      synthesize_answer q rs .noContentAttr = .error .noContentField) ∧
    (∀ q rs, rs ≠ [] →
      synthesize_answer q rs (.message none) = .error .emptyResult) ∧
    (∀ q rs s, rs ≠ [] → pyStrip s = "" →
      synthesize_answer q rs (.message (some s)) = .error .emptyResult) ∧
    (∀ q c s, c ≠ "" → pyStrip s ≠ "" →
      synthesize_answer q [c] (.message (some s)) = .ok (pyStrip s) ∧
        pyStrip s ≠ "") := by
  refine ⟨?_, ?_, ?_, ?_, ?_⟩
  · intro q svc
    cases svc <;> rfl
  · intro q rs h
    cases rs with
    | nil => exact absurd rfl h
    | cons a l => rfl
  · intro q rs h
    cases rs with
    | nil => exact absurd rfl h
    | cons a l => rfl
  · intro q rs s h hs
    cases rs with
    | nil => exact absurd rfl h
    | cons a l => simp [synthesize_answer, hs]
  · intro q c s hc hs
    have hse : s ≠ "" := by
      intro he
      exact hs (by rw [he]; rfl)
    exact ⟨by simp [synthesize_answer, hse, hs], hs⟩

/-- C6 instance at one non-empty content and a padded provider text. -/
theorem synthesize_answer_failure_and_success_check :
    ("a" : String) ≠ "" ∧ pyStrip "  hi  " ≠ "" ∧
    (synthesize_answer "q" ["a"] (.message (some "  hi  ")) = .ok (pyStrip "  hi  ") ∧
      pyStrip "  hi  " ≠ "") :=
  ⟨by decide, by decide,
    synthesize_answer_failure_and_success.2.2.2.2 "q" "a" "  hi  "
      (by decide) (by decide)⟩

/-- C8 counterexample: with one non-empty agent content and a stream whose
full text is empty (hence empty after trimming), the streaming form completes
without error and yields nothing, while the non-streaming form fails on the
same condition — so the failure conditions are not "exactly the same", nor
all checked before the stream starts. -/
theorem streaming_skips_empty_text_check :
    (synthesize_answer_streaming "q" ["a"] []).outcome = .ok () ∧
    (synthesize_answer_streaming "q" ["a"] []).yields = [] ∧
    synthesize_answer "q" ["a"] (.message (some "")) = .error .emptyResult :=
  ⟨rfl, rfl, rfl⟩

theorem runStream_yields_nonempty_sleeps :
    ∀ events : List StreamEvent,
      (∀ s ∈ (runStream events).yields, s ≠ "") ∧
      (runStream events).sleeps = (runStream events).yields.length := by
  intro events
  induction events with
  | nil => exact ⟨by intro s hs; simp [runStream] at hs, rfl⟩
  | cons ev rest ih =>
      cases ev with
      | raises e => exact ⟨by intro s hs; simp [runStream] at hs, rfl⟩
      | chunk c =>
          cases c with
          | none => simpa [runStream] using ih
          | some s =>
              by_cases hs : s = ""
              · simpa [runStream, hs] using ih
              · refine ⟨?_, ?_⟩
                · intro t ht
                  simp only [runStream, if_neg hs] at ht
                  rcases List.mem_cons.mp ht with h | h
                  · rw [h]; exact hs
                  · exact ih.1 t h
                · simp only [runStream, if_neg hs, List.length_cons]
                  exact congrArg (· + 1) ih.2

/-- C8 amended: the streaming form checks only the empty-input condition
before the stream starts; the missing-content-field and empty-after-trimming
conditions of the non-streaming form are not checked in the streaming path
(an all-empty stream completes without error).  Every yielded delta is
non-empty and the fixed 50ms pacing delay runs once after each yield, hence
between consecutive yields. -/
theorem streaming_empty_input_check_and_pacing :
    (∀ q events,
      synthesize_answer_streaming q [] events = ⟨[], 0, .error .noAgentResults⟩) ∧
    (∀ q rs events, rs ≠ [] →
      (∀ s ∈ (synthesize_answer_streaming q rs events).yields, s ≠ "") ∧
      (synthesize_answer_streaming q rs events).sleeps =
        (synthesize_answer_streaming q rs events).yields.length) := by
  refine ⟨fun q events => rfl, ?_⟩
  intro q rs events h
  cases rs with
  | nil => exact absurd rfl h
  | cons a l =>
      show (∀ s ∈ (runStream events).yields, s ≠ "") ∧
        (runStream events).sleeps = (runStream events).yields.length
      exact runStream_yields_nonempty_sleeps events

/-- C8 amended instance: one skipped empty delta, two real yields, two pacing
delays. -/
theorem streaming_empty_input_check_and_pacing_check :
    (["a"] : List String) ≠ [] ∧
    ((∀ s ∈ (synthesize_answer_streaming "q" ["a"]
        [.chunk (some "x"), .chunk (some ""), .chunk none, .chunk (some "y")]).yields, s ≠ "") ∧
      (synthesize_answer_streaming "q" ["a"]
        [.chunk (some "x"), .chunk (some ""), .chunk none, .chunk (some "y")]).sleeps =
      (synthesize_answer_streaming "q" ["a"]
        [.chunk (some "x"), .chunk (some ""), .chunk none, .chunk (some "y")]).yields.length) :=
  ⟨by decide,
    streaming_empty_input_check_and_pacing.2 "q" ["a"]
      [.chunk (some "x"), .chunk (some ""), .chunk none, .chunk (some "y")] (by decide)⟩

/-! ## C4: orchestrator -/

theorem run_agent_wrapper_snd (agent_id : String) (s : AgentScript) :
    (run_agent_wrapper agent_id s).2 = setsPlanReady s := by
  cases s <;> rfl

/-- C4 counterexample: with a single configured agent whose planning fails,
no unit ever sets the shared `first_agent_plan_ready` event, so
`run_agents` blocks forever on `first_agent_plan_ready.wait()` (modelled as
`result = none`) instead of returning normally — contradicting "run_agents
returns normally even when some or all agents fail". -/
theorem run_agents_blocks_when_no_plan_ready :
    run_agents "q" [.planningFails "boom"] true = ⟨none, none⟩ := rfl

/-- C4 amended: `run_agents` never re-raises an individual agent failure —
every failure is captured as a failed `AgentResult` — and, provided at least
one agent sets the plan-ready event (its planning succeeded), it returns a
`MultiAgentResult` whose `results` have length exactly `N = len(agent_configs)`
and emits the `agents_completed` notification carrying `len(agent_configs)`;
when no agent ever sets the event (for example, every agent fails during
planning, or `N = 0`), `run_agents` blocks forever on the event wait and does
not return. -/
theorem any_planReady_enumFrom (scripts : List AgentScript) :
    ∀ n : Nat,
      ((List.enumFrom n scripts).map
        (fun p => run_agent_wrapper ("agent_" ++ toString (p.1 + 1)) p.2)).any
        (fun u => u.2) = scripts.any setsPlanReady := by
  induction scripts with
  | nil => intro n; rfl
  | cons a t ih =>
      intro n
      have he : List.enumFrom n (a :: t) = (n, a) :: List.enumFrom (n + 1) t := rfl
      rw [he, List.map_cons, List.any_cons, run_agent_wrapper_snd, ih (n + 1),
        List.any_cons]

theorem run_agents_returns_given_plan_ready
    (req : String) (scripts : List AgentScript) (sp : Bool)
    (h : scripts.any setsPlanReady = true) :
    ∃ m, (run_agents req scripts sp).result = some m ∧
      m.results.length = scripts.length ∧
      (run_agents req scripts sp).completedEventAgents =
        (if sp then some scripts.length else none) := by
  have hany : (scripts.enum.map
      (fun p => run_agent_wrapper ("agent_" ++ toString (p.1 + 1)) p.2)).any
        (fun u => u.2) = true := by
    have he : scripts.enum = List.enumFrom 0 scripts := rfl
    rw [he, any_planReady_enumFrom scripts 0, h]
  have hrun : run_agents req scripts sp =
      ⟨some ⟨(scripts.enum.map
          (fun p => run_agent_wrapper ("agent_" ++ toString (p.1 + 1)) p.2)).map
            (fun u => u.1),
        (((scripts.enum.map
          (fun p => run_agent_wrapper ("agent_" ++ toString (p.1 + 1)) p.2)).map
            (fun u => u.1)).filter (fun r => r.success)).length⟩,
        if sp then some scripts.length else none⟩ := by
    simp only [run_agents, hany, if_true]
  refine ⟨⟨(scripts.enum.map
      (fun p => run_agent_wrapper ("agent_" ++ toString (p.1 + 1)) p.2)).map
        (fun u => u.1),
    (((scripts.enum.map
      (fun p => run_agent_wrapper ("agent_" ++ toString (p.1 + 1)) p.2)).map
        (fun u => u.1)).filter (fun r => r.success)).length⟩, ?_, ?_, ?_⟩
  · rw [hrun]
  · show ((scripts.enum.map
        (fun p => run_agent_wrapper ("agent_" ++ toString (p.1 + 1)) p.2)).map
          (fun u => u.1)).length = scripts.length
    rw [List.length_map, List.length_map]
    exact List.enum_length
  · rw [hrun]

/-! ## C10: the post-loop MaxRetriesExceededError branch is unreachable -/

theorem stepLoop_no_mre (reg : Registry) (title : String) (maxRetries : Int) :
    ∀ (script : List LLMAttempt) (messages : List ChatMessage) (retries : Int),
      retries ≤ maxRetries →
      (stepLoop reg title maxRetries script messages retries).outcome ≠
        StepOutcome.maxRetriesExceeded := by
  intro script
  induction script with
  | nil =>
      intro messages retries h
      simp [stepLoop, h]
  | cons a rest ih =>
      intro messages retries h
      cases a with
      | raises e =>
          by_cases hr : retries + 1 > maxRetries
          · simp [stepLoop, h, hr]
          · have hrec := ih messages (retries + 1) (by omega)
            simpa [stepLoop, h, hr] using hrec
      | response toolCalls content =>
          cases toolCalls with
          | cons tc tcs =>
              cases hout : (processBatch reg (tc :: tcs)).output with
              | none =>
                  have hrec := ih (messages ++ (processBatch reg (tc :: tcs)).appended)
                    retries h
                  simpa [stepLoop, h, hout] using hrec
              | str s => simp [stepLoop, h, hout]
              | strDict fs => simp [stepLoop, h, hout]
          | nil =>
              cases content with
              | some s =>
                  by_cases hs : s = ""
                  · by_cases hr : retries + 1 > maxRetries
                    · simp [stepLoop, h, hs, hr]
                    · have hrec := ih (messages ++ [ChatMessage.user emptyRespMsg])
                        (retries + 1) (by omega)
                      simpa [stepLoop, h, hs, hr] using hrec
                  · by_cases hr : retries + 1 ≤ maxRetries
                    · have hrec := ih
                        (messages ++ [ChatMessage.assistant s, ChatMessage.user useFinalMsg])
                        (retries + 1) hr
                      simpa [stepLoop, h, hs, hr] using hrec
                    · simp [stepLoop, h, hs, hr]
              | none =>
                  by_cases hr : retries + 1 > maxRetries
                  · simp [stepLoop, h, hr]
                  · have hrec := ih (messages ++ [ChatMessage.user emptyRespMsg])
                      (retries + 1) (by omega)
                    simpa [stepLoop, h, hr] using hrec

/-- C10: with a non-negative retry budget, every exit path of the retry loop
either sets a step output or raises `ExecutionError`, so whenever
`execute_step` terminates it never raises `MaxRetriesExceededError` — the
post-loop branch is unreachable. -/
theorem execute_step_never_max_retries_exceeded
    (reg : Registry) (stepTitle systemPrompt context datetimeContext : String)
    (maxRetries : Int) (script : List LLMAttempt) (h : 0 ≤ maxRetries) :
    (execute_step reg stepTitle systemPrompt context datetimeContext maxRetries
        script).outcome ≠ StepOutcome.maxRetriesExceeded :=
  stepLoop_no_mre reg stepTitle maxRetries script _ 0 h

/-- C10 instance at a concrete budget and script. -/
theorem execute_step_never_max_retries_exceeded_check :
    ((0 : Int) ≤ 3) ∧
    (execute_step sampleRegistry "t" "sys" "ctx" "now" 3
        [LLMAttempt.raises "boom"]).outcome ≠ StepOutcome.maxRetriesExceeded :=
  ⟨by decide,
    execute_step_never_max_retries_exceeded sampleRegistry "t" "sys" "ctx" "now" 3
      [LLMAttempt.raises "boom"] (by decide)⟩

/-! ## C1: the terminal tool short-circuits its batch -/

theorem processBatch_final (reg : Registry) :
    ∀ (pre : List ToolCall) (call : ToolCall) (post : List ToolCall)
      (fields : List (String × String)) (c : String),
      (∀ tc ∈ pre, tc.name ≠ "final_response") →
      call.name = "final_response" →
      call.args = ToolArgs.dict fields →
      lookupField fields "content" = some c →
      (processBatch reg (pre ++ call :: post)).output = PyVal.str c ∧
      (processBatch reg (pre ++ call :: post)).executed =
        pre.map ToolCall.name ++ ["final_response"] := by
  intro pre
  induction pre with
  | nil =>
      intro call post fields c _ hname hargs hc
      constructor
      · show (processBatch reg (call :: post)).output = _
        simp [processBatch, hname, hargs, orEmptyArgs, pyExecuteTool, hc]
      · show (processBatch reg (call :: post)).executed = _
        simp [processBatch, hname]
  | cons a pre ih =>
      intro call post fields c hpre hname hargs hc
      have hane : a.name ≠ "final_response" := hpre a (by simp)
      have ihh := ih call post fields c
        (fun tc htc => hpre tc (by simp [htc])) hname hargs hc
      constructor
      · show (processBatch reg (a :: (pre ++ call :: post))).output = _
        simp only [processBatch, if_neg hane]
        exact ihh.1
      · show (processBatch reg (a :: (pre ++ call :: post))).executed = _
        simp only [processBatch, if_neg hane, List.map_cons, List.cons_append]
        rw [ihh.2]

/-- C1: whenever a batch of tool calls holds the terminal `final_response`
call (the first terminal call of the batch) with a `content` argument `c`,
the step output is exactly `c` and no tool call after it in the batch is
executed — the executed tools are exactly the calls before it plus the
terminal call itself.  Stated on `stepLoop` at an arbitrary reachable loop
state, so it covers the batch arriving at any attempt of `execute_step`. -/
theorem final_response_short_circuits_batch
    (reg : Registry) (title : String) (maxRetries : Int)
    (messages : List ChatMessage) (retries : Int)
    (pre post : List ToolCall) (call : ToolCall)
    (fields : List (String × String)) (c : String)
    (content : Option String) (rest : List LLMAttempt)
    (hr : retries ≤ maxRetries)
    (hpre : ∀ tc ∈ pre, tc.name ≠ "final_response")
    (hname : call.name = "final_response")
    (hargs : call.args = ToolArgs.dict fields)
    (hc : lookupField fields "content" = some c) :
    (stepLoop reg title maxRetries
        (LLMAttempt.response (pre ++ call :: post) content :: rest)
        messages retries).outcome = StepOutcome.ok (PyVal.str c) ∧
    (stepLoop reg title maxRetries
        (LLMAttempt.response (pre ++ call :: post) content :: rest)
        messages retries).toolsExecuted =
      pre.map ToolCall.name ++ ["final_response"] := by
  obtain ⟨hout, hexec⟩ := processBatch_final reg pre call post fields c hpre hname hargs hc
  obtain ⟨tc, tcs, hlist⟩ : ∃ tc tcs, pre ++ call :: post = tc :: tcs := by
    cases pre with
    | nil => exact ⟨call, post, rfl⟩
    | cons x xs => exact ⟨x, xs ++ call :: post, rfl⟩
  rw [hlist] at hout hexec ⊢
  constructor
  · simp [stepLoop, hr, hout]
  · simp [stepLoop, hr, hout, hexec]

/-- C1 instance: a batch of a search call, the terminal call, and a trailing
search call — output is the `content` argument, the trailing call is never
executed. -/
theorem final_response_short_circuits_batch_check :
    ((0 : Int) ≤ 0) ∧
    (stepLoop sampleRegistry "t" 0
        (LLMAttempt.response
          ([⟨"web_search", ToolArgs.dict [("query", "x")]⟩] ++
            ⟨"final_response", ToolArgs.dict [("content", "ANSWER")]⟩ ::
              [⟨"web_search", ToolArgs.dict [("query", "y")]⟩]) none :: [])
        [] 0).outcome = StepOutcome.ok (PyVal.str "ANSWER") ∧
    (stepLoop sampleRegistry "t" 0
        (LLMAttempt.response
          ([⟨"web_search", ToolArgs.dict [("query", "x")]⟩] ++
            ⟨"final_response", ToolArgs.dict [("content", "ANSWER")]⟩ ::
              [⟨"web_search", ToolArgs.dict [("query", "y")]⟩]) none :: [])
        [] 0).toolsExecuted =
      [⟨"web_search", ToolArgs.dict [("query", "x")]⟩].map ToolCall.name ++
        ["final_response"] :=
  ⟨by decide,
    (final_response_short_circuits_batch sampleRegistry "t" 0 [] 0
      [⟨"web_search", ToolArgs.dict [("query", "x")]⟩]
      [⟨"web_search", ToolArgs.dict [("query", "y")]⟩]
      ⟨"final_response", ToolArgs.dict [("content", "ANSWER")]⟩
      [("content", "ANSWER")] "ANSWER" none []
      (by decide) (by decide) rfl rfl rfl).1,
    (final_response_short_circuits_batch sampleRegistry "t" 0 [] 0
      [⟨"web_search", ToolArgs.dict [("query", "x")]⟩]
      [⟨"web_search", ToolArgs.dict [("query", "y")]⟩]
      ⟨"final_response", ToolArgs.dict [("content", "ANSWER")]⟩
      [("content", "ANSWER")] "ANSWER" none []
      (by decide) (by decide) rfl rfl rfl).2⟩

/-! ## C2: transport failures exhaust the retry budget -/

theorem stepLoop_all_raises (reg : Registry) (title : String) (m : Nat) :
    ∀ (es : List String) (tail : List LLMAttempt) (r : Nat)
      (messages : List ChatMessage) (hne : es ≠ []),
      r + es.length = m + 1 →
      stepLoop reg title (m : Int) (es.map LLMAttempt.raises ++ tail)
          messages (r : Int) =
        ⟨.execError ((m : Int) + 1) (es.getLast hne), messages,
          es.length, es.length - 1, []⟩ := by
  intro es
  induction es with
  | nil => intro tail r messages hne _; exact absurd rfl hne
  | cons e es ih =>
      intro tail r messages hne hsum
      cases es with
      | nil =>
          have hrm : r = m := by simp at hsum; omega
          subst hrm
          have h1 : (r : Int) ≤ (r : Int) := le_refl _
          have h2 : (r : Int) + 1 > (r : Int) := by omega
          rw [show ([e].map LLMAttempt.raises ++ tail) =
              (LLMAttempt.raises e :: tail) from rfl,
            stepLoop_raises_last reg title (r : Int) e tail messages (r : Int) h1 h2]
          rfl
      | cons e2 es2 =>
          have hlt : r < m := by simp at hsum; omega
          have h1 : (r : Int) ≤ (m : Int) := by exact_mod_cast hlt.le
          have h2 : ¬((r : Int) + 1 > (m : Int)) := by
            have : (r : Int) < (m : Int) := by exact_mod_cast hlt
            omega
          have hsum2 : (r + 1) + (e2 :: es2).length = m + 1 := by
            simp at hsum ⊢; omega
          have ihh := ih tail (r + 1) messages (by simp) hsum2
          rw [show ((e :: e2 :: es2).map LLMAttempt.raises ++ tail) =
              (LLMAttempt.raises e :: ((e2 :: es2).map LLMAttempt.raises ++ tail))
              from rfl,
            stepLoop_raises_step reg title (m : Int) e _ messages (r : Int) h1 h2]
          rw [show ((r : Int) + 1) = (((r + 1 : Nat)) : Int) from by push_cast; ring]
          rw [ihh]
          simp [List.getLast_cons]

/-- C2: when the completion call raises on every attempt, `execute_step`
makes exactly `max_retries + 1` completion attempts — never more, even with
further scripted failures available — takes the 0.5s backoff between
consecutive attempts (`max_retries` sleeps), and raises `ExecutionError`
wrapping the exception of the final attempt. -/
theorem transport_failures_exhaust_retry_budget
    (reg : Registry) (title sys ctx dt : String) (m : Nat)
    (es : List String) (tail : List LLMAttempt) (hne : es ≠ [])
    (hlen : es.length = m + 1) :
    execute_step reg title sys ctx dt (m : Int)
        (es.map LLMAttempt.raises ++ tail) =
      ⟨.execError ((m : Int) + 1) (es.getLast hne),
        [ChatMessage.system (buildSystemContent sys dt), ChatMessage.user ctx],
        m + 1, m, []⟩ := by
  have h := stepLoop_all_raises reg title m es tail 0
    [ChatMessage.system (buildSystemContent sys dt), ChatMessage.user ctx]
    hne (by omega)
  rw [show (((0 : Nat)) : Int) = (0 : Int) from rfl] at h
  unfold execute_step
  rw [h, hlen]
  simp

/-- C2 instance: a 1-retry budget and a service raising on every attempt —
2 attempts, 1 backoff sleep, `ExecutionError` wrapping the last exception. -/
theorem transport_failures_exhaust_retry_budget_check :
    (["e1", "e2"] : List String) ≠ [] ∧
    (["e1", "e2"] : List String).length = 1 + 1 ∧
    execute_step sampleRegistry "t" "sys" "ctx" "now" ((1 : Nat) : Int)
        ((["e1", "e2"] : List String).map LLMAttempt.raises ++ []) =
      ⟨.execError (((1 : Nat) : Int) + 1)
          ((["e1", "e2"] : List String).getLast (by decide)),
        [ChatMessage.system (buildSystemContent "sys" "now"),
         ChatMessage.user "ctx"],
        1 + 1, 1, []⟩ :=
  ⟨by decide, by decide,
    transport_failures_exhaust_retry_budget sampleRegistry "t" "sys" "ctx" "now" 1
      ["e1", "e2"] [] (by decide) (by decide)⟩

/-! ## C5: direct text exhausts retries and falls back to the last text -/

theorem stepLoop_all_direct (reg : Registry) (title : String) (m : Nat) :
    ∀ (ts : List String) (tail : List LLMAttempt) (r : Nat)
      (messages : List ChatMessage) (hne : ts ≠ []),
      (∀ t ∈ ts, t ≠ "") → r + ts.length = m + 1 →
      stepLoop reg title (m : Int)
          (ts.map (fun t => LLMAttempt.response [] (some t)) ++ tail)
          messages (r : Int) =
        ⟨.ok (.str (ts.getLast hne)),
          messages ++ retryTranscript ts.dropLast, ts.length, 0, []⟩ := by
  intro ts
  induction ts with
  | nil => intro tail r messages hne _ _; exact absurd rfl hne
  | cons t ts ih =>
      intro tail r messages hne hall hsum
      cases ts with
      | nil =>
          have hrm : r = m := by simp at hsum; omega
          subst hrm
          have h1 : (r : Int) ≤ (r : Int) := le_refl _
          have h2 : ¬((r : Int) + 1 ≤ (r : Int)) := by omega
          rw [show ([t].map (fun t => LLMAttempt.response [] (some t)) ++ tail) =
              (LLMAttempt.response [] (some t) :: tail) from rfl,
            stepLoop_direct_last reg title (r : Int) t tail messages (r : Int)
              h1 (hall t (by simp)) h2]
          simp [retryTranscript]
      | cons t2 ts2 =>
          have hlt : r < m := by simp at hsum; omega
          have h1 : (r : Int) ≤ (m : Int) := by exact_mod_cast hlt.le
          have h2 : (r : Int) + 1 ≤ (m : Int) := by
            have : (r : Int) < (m : Int) := by exact_mod_cast hlt
            omega
          have hsum2 : (r + 1) + (t2 :: ts2).length = m + 1 := by
            simp at hsum ⊢; omega
          have ihh := ih tail (r + 1)
            (messages ++ [ChatMessage.assistant t, ChatMessage.user useFinalMsg])
            (by simp) (fun x hx => hall x (by simp [hx])) hsum2
          rw [show ((t :: t2 :: ts2).map (fun t => LLMAttempt.response [] (some t)) ++ tail) =
              (LLMAttempt.response [] (some t) ::
                ((t2 :: ts2).map (fun t => LLMAttempt.response [] (some t)) ++ tail))
              from rfl,
            stepLoop_direct_step reg title (m : Int) t _ messages (r : Int)
              h1 (hall t (by simp)) h2]
          rw [show ((r : Int) + 1) = (((r + 1 : Nat)) : Int) from by push_cast; ring]
          rw [ihh]
          simp [List.getLast_cons, retryTranscript]

/-- C5: when the completion service returns non-empty direct text (no tool
calls) on every attempt until the retry budget is exhausted, `execute_step`
returns the final text verbatim and raises nothing, and on each non-final
attempt the assistant's text plus the instruction to use the terminal tool
are appended to the conversation before retrying. -/
theorem direct_text_fallback_after_retries
    (reg : Registry) (title sys ctx dt : String) (m : Nat)
    (ts : List String) (tail : List LLMAttempt) (hne : ts ≠ [])
    (hall : ∀ t ∈ ts, t ≠ "") (hlen : ts.length = m + 1) :
    execute_step reg title sys ctx dt (m : Int)
        (ts.map (fun t => LLMAttempt.response [] (some t)) ++ tail) =
      ⟨.ok (.str (ts.getLast hne)),
        [ChatMessage.system (buildSystemContent sys dt), ChatMessage.user ctx] ++
          retryTranscript ts.dropLast,
        m + 1, 0, []⟩ := by
  have h := stepLoop_all_direct reg title m ts tail 0
    [ChatMessage.system (buildSystemContent sys dt), ChatMessage.user ctx]
    hne hall (by omega)
  rw [show (((0 : Nat)) : Int) = (0 : Int) from rfl] at h
  unfold execute_step
  rw [h, hlen]

/-- C5 instance: direct text twice within a 1-retry budget — the step output
is the second text verbatim, no exception, one corrective exchange appended. -/
theorem direct_text_fallback_after_retries_check :
    (["t1", "t2"] : List String) ≠ [] ∧
    (∀ t ∈ (["t1", "t2"] : List String), t ≠ "") ∧
    (["t1", "t2"] : List String).length = 1 + 1 ∧
    execute_step sampleRegistry "t" "sys" "ctx" "now" ((1 : Nat) : Int)
        ((["t1", "t2"] : List String).map
          (fun t => LLMAttempt.response [] (some t)) ++ []) =
      ⟨.ok (.str ((["t1", "t2"] : List String).getLast (by decide))),
        [ChatMessage.system (buildSystemContent "sys" "now"),
         ChatMessage.user "ctx"] ++
          retryTranscript (["t1", "t2"] : List String).dropLast,
        1 + 1, 0, []⟩ :=
  ⟨by decide, by decide, by decide,
    direct_text_fallback_after_retries sampleRegistry "t" "sys" "ctx" "now" 1
      ["t1", "t2"] [] (by decide) (by decide) (by decide)⟩

/-! ## C7: tool failures become payloads fed back without consuming a retry -/

theorem pyExecuteTool_error (reg : Registry) (name : String)
    (fields : List (String × String)) (e : String)
    (hn : name ≠ "final_response")
    (he : registryExecuteTool reg name fields = .error e) :
    pyExecuteTool reg name (.dict fields) =
      .strDict [("content", "Error in " ++ name ++ ": " ++ e)] := by
  simp [pyExecuteTool, hn, he]

/-- C7: tool execution never propagates an exception into the conversation
loop — a raising tool (including `ToolNotFoundError` for an unknown or
disabled tool) yields the payload `{"content": "Error in <name>: <message>"}`
from `_execute_tool`, and inside the loop that payload is appended to the
conversation as a normal tool result while the retry counter stays
unchanged. -/
theorem tool_failures_become_payloads_without_retry :
    (∀ (reg : Registry) (name : String) (fields : List (String × String))
        (e : String), name ≠ "final_response" →
      registryExecuteTool reg name fields = .error e →
      pyExecuteTool reg name (.dict fields) =
        .strDict [("content", "Error in " ++ name ++ ": " ++ e)]) ∧
    (∀ (reg : Registry) (name : String) (fields : List (String × String)),
      registryLookup reg name = none →
      registryExecuteTool reg name fields =
        .error ("Tool \x27" ++ name ++ "\x27 not found")) ∧
    (∀ (reg : Registry) (title : String) (maxRetries : Int)
        (messages : List ChatMessage) (retries : Int) (rest : List LLMAttempt)
        (call : ToolCall) (content : Option String)
        (fields : List (String × String)) (e : String),
      retries ≤ maxRetries → call.name ≠ "final_response" →
      orEmptyArgs call.args = ToolArgs.dict fields →
      registryExecuteTool reg call.name fields = .error e →
      stepLoop reg title maxRetries
          (LLMAttempt.response [call] content :: rest) messages retries =
        (let payload : PyVal :=
          .strDict [("content", "Error in " ++ call.name ++ ": " ++ e)]
         let r := stepLoop reg title maxRetries rest
           (messages ++ [ChatMessage.assistantToolCall call,
             ChatMessage.toolResult call.name (dumps payload)]) retries
         ⟨r.outcome, r.messages, r.attempts + 1, r.sleeps,
          call.name :: r.toolsExecuted⟩)) := by
  refine ⟨pyExecuteTool_error, ?_, ?_⟩
  · intro reg name fields h
    simp [registryExecuteTool, getTool, h]
  · intro reg title maxRetries messages retries rest call content fields e
      h1 hnf horEmpty hreg
    have hb : processBatch reg [call] =
        ⟨PyVal.none,
          [ChatMessage.assistantToolCall call,
           ChatMessage.toolResult call.name
             (dumps (PyVal.strDict
               [("content", "Error in " ++ call.name ++ ": " ++ e)]))],
          [call.name]⟩ := by
      simp [processBatch, hnf, horEmpty,
        pyExecuteTool_error reg call.name fields e hnf hreg]
    rw [stepLoop_batch_continue reg title maxRetries call [] content rest
      messages retries h1 (by rw [hb])]
    rw [hb]
    rfl

/-- C7 instance: an unknown tool raises `ToolNotFoundError`; the loop feeds
the error payload back as a tool result with the retry counter unchanged. -/
theorem tool_failures_become_payloads_without_retry_check :
    ((0 : Int) ≤ 0) ∧
    stepLoop sampleRegistry "t" 0
        (LLMAttempt.response [⟨"missing_tool", ToolArgs.dict []⟩] none :: [])
        [] 0 =
      (let payload : PyVal :=
        .strDict [("content",
          "Error in " ++ "missing_tool" ++ ": " ++
            "Tool \x27missing_tool\x27 not found")]
       let r := stepLoop sampleRegistry "t" 0 []
         ([] ++ [ChatMessage.assistantToolCall ⟨"missing_tool", ToolArgs.dict []⟩,
           ChatMessage.toolResult "missing_tool" (dumps payload)]) 0
       ⟨r.outcome, r.messages, r.attempts + 1, r.sleeps,
        "missing_tool" :: r.toolsExecuted⟩) :=
  ⟨by decide,
    tool_failures_become_payloads_without_retry.2.2 sampleRegistry "t" 0 [] 0 []
      ⟨"missing_tool", ToolArgs.dict []⟩ none [] "Tool \x27missing_tool\x27 not found"
      (by decide) (by decide) rfl rfl⟩

/-- C4 amended instance: two configured agents, one failing at planning and
one succeeding — results length 2 and an `agents_completed` count of 2. -/
theorem run_agents_returns_given_plan_ready_check :
    (([AgentScript.planningFails "boom",
       AgentScript.planReadyThenSucceeds "c" 2] : List AgentScript).any
        setsPlanReady = true) ∧
    (∃ m, (run_agents "q" [AgentScript.planningFails "boom",
        AgentScript.planReadyThenSucceeds "c" 2] true).result = some m ∧
      m.results.length = 2 ∧
      (run_agents "q" [AgentScript.planningFails "boom",
        AgentScript.planReadyThenSucceeds "c" 2] true).completedEventAgents =
        (if true then some 2 else none)) :=
  ⟨by decide,
    run_agents_returns_given_plan_ready "q"
      [AgentScript.planningFails "boom", AgentScript.planReadyThenSucceeds "c" 2]
      true (by decide)⟩

end OpenHeavy
